import Mathlib

/-!
Verification development for the librapid N-dimensional array engine.

The definitions below are a shallow embedding of the control flow of the
array evaluation engine: the shape checks, path dispatch, stride and
scalar-flag updates of `Array::applyUnaryOp` / `Array::applyBinaryOp`
(both the current header `src/librapid/array/multiarray.hpp` and the
legacy header `LEGACY/src/librapid/array/multiarray.hpp`), the reference
counting of `Array::increment` / `Array::decrement`, the seed state of
`Array::fillRandom`, the map-kernel operand validation, the scalar
constructors, and the `ValueReference<bool>` bit reference.

Machine integers are modelled as `Nat` / `Int` with explicit `% 2 ^ w`
where wrap-around matters.  Element data is not modelled except where a
claim is about a stored value.
-/

namespace librapid

/-- Modelled from the spec: the `Datatype` enumeration is declared in a
header that is not under `src/` (only its uses are).  Spec §3 fixes the
order: `None`, `ValidNone`, `Int32`, `Int64`, `Float32`, `Float64`,
`CFloat32` and `CFloat64`, "enumerated so float > int, wider > narrower,
complex > real of same width"; the order agrees with the `switch` over
`Datatype` in the legacy header. -/
inductive Datatype where
  | NONE
  | VALIDNONE
  | INT32
  | INT64
  | FLOAT32
  | FLOAT64
  | CFLOAT32
  | CFLOAT64
deriving DecidableEq, Repr, BEq

/-- The underlying integer value of each enumerator (declaration order). -/
def Datatype.ordinal : Datatype → Nat
  | .NONE => 0
  | .VALIDNONE => 1
  | .INT32 => 2
  | .INT64 => 3
  | .FLOAT32 => 4
  | .FLOAT64 => 5
  | .CFLOAT32 => 6
  | .CFLOAT64 => 7

/-- `max(srcA.m_dtype, srcB.m_dtype)` (multiarray.hpp line 507, legacy
line 1988): `max` on a C++ enum compares the underlying values. -/
def maxDatatype (a b : Datatype) : Datatype :=
  if a.ordinal < b.ordinal then b else a

/-- Modelled from the spec: the `Accelerator` enumeration (`NONE`, `CPU`,
`GPU`) is declared in a header not under `src/`; `Accelerator::NONE` is a
sentinel used only as a "keep current" default argument, spec §3 says a
device is `Cpu` or `Gpu`. -/
inductive Accelerator where
  | NONE
  | CPU
  | GPU
deriving DecidableEq, Repr, BEq

/-- The underlying integer value of each enumerator (declaration order). -/
def Accelerator.ordinal : Accelerator → Nat
  | .NONE => 0
  | .CPU => 1
  | .GPU => 2

/-- `max(srcA.m_location, srcB.m_location)` (multiarray.hpp line 506,
legacy line 1987). -/
def maxAccelerator (a b : Accelerator) : Accelerator :=
  if a.ordinal < b.ordinal then b else a

/-- Modelled from the spec: `Extent` (extent.hpp is not under `src/`) is
a dimension vector of signed 64-bit sizes with structural equality; only
equality and `size()` (the product of the dimensions) are needed here. -/
abbrev Extent := List Int

/-- `Extent::size()`: the product of the dimensions (1 for no dims). -/
def extentSize (e : Extent) : Int :=
  e.foldl (fun a b => a * b) 1

/-- Modelled from the spec: `Stride` (stride.hpp is not under `src/`)
holds an element-stride vector plus the two cached booleans `isTrivial`
("strides match the natural row-major layout") and `isContiguous` ("no
gaps"), which operations may set and clear independently; `operator==`
compares the stride vectors. -/
structure Stride where
  vals : List Int
  isTrivial : Bool
  isContiguous : Bool
deriving DecidableEq, Repr, BEq

/-- Both cached flags at once, as tested by the dispatchers. -/
def Stride.trivialContiguous (s : Stride) : Bool :=
  s.isTrivial && s.isContiguous

/-- Natural row-major strides of an extent: the stride of an axis is the
product of all later dimensions. -/
def naturalStride : List Int → List Int
  | [] => []
  | _ :: rest => extentSize rest :: naturalStride rest

/-- The trivial, contiguous stride a freshly allocated array receives. -/
def strideFromExtent (e : Extent) : Stride :=
  ⟨naturalStride e, true, true⟩

/-- The fields of `librapid::Array` that the claims are about: device,
dtype, extent, stride, the `m_isScalar` / `m_isChild` flags and whether
`m_references` is non-null (`hasRefs`).  Storage contents are not
modelled. -/
structure Array where
  location : Accelerator := .CPU
  dtype : Datatype := .NONE
  extent : Extent := []
  stride : Stride := ⟨[], true, true⟩
  isScalar : Bool := false
  isChild : Bool := false
  hasRefs : Bool := false
deriving DecidableEq, Repr

/-- Modelled from the spec: `Array(extent, dtype, location)` calls
`constructNew`, whose body is in a translation unit not under `src/`;
per spec §4.3 it allocates `extent.size()` elements on `location`, sets
the trivial row-major stride and a reference count of 1. -/
def mkArray (e : Extent) (d : Datatype) (l : Accelerator) : Array :=
  { location := l
    dtype := d
    extent := e
    stride := strideFromExtent e
    isScalar := false
    isChild := false
    hasRefs := true }

/-- The two failure modes of the `applyUnaryOp` / `applyBinaryOp` entry
points: the operand shape check ("Cannot operate on two arrays with ...",
the spec's `ShapeMismatch`) and the destination check ("... and store the
result in ..."). -/
inductive BinError where
  | shapeMismatch
  | destMismatch
deriving DecidableEq, Repr

/-- Which traversal the dispatcher chose. -/
inductive Path where
  | trivialPath
  | stridedPath
deriving DecidableEq, Repr

/-- Outcome of a materialization: the destination array as updated by the
entry point, plus the path chosen. -/
structure BinResult where
  res : Array
  path : Path
deriving DecidableEq, Repr

/-- The binary fast-path condition, identical in all four binary entry
points: `(a trivial ∧ contiguous ∧ b trivial ∧ contiguous) ∨ a.stride ==
b.stride` (multiarray.hpp lines 472-474 and 515-517, legacy lines
1940-1942 and 1998-2000). -/
def binaryTrivialCond (a b : Array) : Bool :=
  (a.stride.trivialContiguous && b.stride.trivialContiguous)
    || a.stride.vals == b.stride.vals

/-- `Array::applyBinaryOp(const Array &a, const Array &b, const FUNC &)`
(multiarray.hpp lines 495-538): the returning overload of the current
header.  Shape check with scalar exemption; fresh destination from
`a.m_extent`; on the fast path `res.m_stride = a.m_stride`; finally
`res.m_isScalar = true` when both operands are scalar. -/
def applyBinaryOp (a b : Array) : Except BinError BinResult :=
  if !(a.isScalar || b.isScalar) && a.extent != b.extent then
    .error .shapeMismatch
  else
    let res0 := mkArray a.extent (maxDatatype a.dtype b.dtype)
      (maxAccelerator a.location b.location)
    if binaryTrivialCond a b then
      let res1 := { res0 with stride := a.stride }
      let res2 := if a.isScalar && b.isScalar then
        { res1 with isScalar := true } else res1
      .ok ⟨res2, .trivialPath⟩
    else
      let res2 := if a.isScalar && b.isScalar then
        { res0 with isScalar := true } else res0
      .ok ⟨res2, .stridedPath⟩

/-- `Array::applyBinaryOp(const Array &a, const Array &b, Array &res,
const FUNC &)` (multiarray.hpp lines 449-493): the in-place overload of
the current header.  Its shape check `a.m_extent != b.m_extent` has no
scalar exemption; then the destination must have references and the same
extent as `a`. -/
def applyBinaryOpTo (a b res : Array) : Except BinError BinResult :=
  if a.extent != b.extent then
    .error .shapeMismatch
  else if !res.hasRefs || res.extent != a.extent then
    .error .destMismatch
  else if binaryTrivialCond a b then
    .ok ⟨{ res with
           stride := a.stride
           isScalar := res.isScalar || (a.isScalar && b.isScalar) },
         .trivialPath⟩
  else
    .ok ⟨{ res with
           isScalar := res.isScalar || (a.isScalar && b.isScalar) },
         .stridedPath⟩

/-- Legacy `Array::applyBinaryOp(const Array &srcA, const Array &srcB,
const FUNC &, ...)` (legacy multiarray.hpp lines 1973-2031) with the
default `permitInvalid = false`: fresh destination from `srcB.m_extent`
when `srcA` is scalar, else `srcA.m_extent`; on the fast path
`dst.m_stride = srcA.m_isScalar ? srcB.m_stride : srcA.m_stride`. -/
def legacyApplyBinaryOp (a b : Array) : Except BinError BinResult :=
  if !(a.isScalar || b.isScalar) && a.extent != b.extent then
    .error .shapeMismatch
  else
    let dst0 := mkArray (if a.isScalar then b.extent else a.extent)
      (maxDatatype a.dtype b.dtype) (maxAccelerator a.location b.location)
    if binaryTrivialCond a b then
      let dst1 := { dst0 with
        stride := if a.isScalar then b.stride else a.stride }
      let dst2 := if a.isScalar && b.isScalar then
        { dst1 with isScalar := true } else dst1
      .ok ⟨dst2, .trivialPath⟩
    else
      let dst2 := if a.isScalar && b.isScalar then
        { dst0 with isScalar := true } else dst0
      .ok ⟨dst2, .stridedPath⟩

/-- Legacy `Array::applyBinaryOp(Array &dst, const Array &srcA, const
Array &srcB, const FUNC &, ...)` (legacy multiarray.hpp lines 1913-1971)
with the default `permitInvalid = false`: the shape check has the scalar
exemption; the destination must have references and `srcA`'s extent. -/
def legacyApplyBinaryOpTo (a b dst : Array) : Except BinError BinResult :=
  if !a.isScalar && !b.isScalar && a.extent != b.extent then
    .error .shapeMismatch
  else if !dst.hasRefs || dst.extent != a.extent then
    .error .destMismatch
  else if binaryTrivialCond a b then
    .ok ⟨{ dst with
           stride := if a.isScalar then b.stride else a.stride
           isScalar := dst.isScalar || (a.isScalar && b.isScalar) },
         .trivialPath⟩
  else
    .ok ⟨{ dst with
           isScalar := dst.isScalar || (a.isScalar && b.isScalar) },
         .stridedPath⟩

/-- `Array::applyUnaryOp(const Array &a, Array &res, const FUNC &)`
(multiarray.hpp lines 415-447): the current header's unary dispatcher.
The path condition inspects only the source stride
(`a.m_stride.isTrivial() && a.m_stride.isContiguous()`); the destination
stride is never examined or updated, and `res.m_isScalar = a.m_isScalar`
at the end. -/
def applyUnaryOp (a res : Array) : Except BinError BinResult :=
  if !res.hasRefs || res.extent != a.extent then
    .error .destMismatch
  else if a.stride.trivialContiguous then
    .ok ⟨{ res with isScalar := a.isScalar }, .trivialPath⟩
  else
    .ok ⟨{ res with isScalar := a.isScalar }, .stridedPath⟩

/-- Legacy `Array::applyUnaryOp(Array &dst, const Array &src, const FUNC
&, ...)` (legacy multiarray.hpp lines 1777-1834) with the default
`permitInvalid = false`: the path condition checks the destination AND
the source (`dst` trivial ∧ contiguous ∧ `src` trivial ∧ contiguous). -/
def legacyApplyUnaryOp (dst src : Array) : Except BinError BinResult :=
  if !dst.hasRefs || dst.extent != src.extent then
    .error .destMismatch
  else if dst.stride.trivialContiguous && src.stride.trivialContiguous then
    .ok ⟨{ dst with isScalar := src.isScalar }, .trivialPath⟩
  else
    .ok ⟨{ dst with isScalar := src.isScalar }, .stridedPath⟩

/-- State of one shared storage buffer: the value of the shared
`std::atomic<size_t> *m_references` counter and the number of times the
underlying storage has been freed (`AUTOCAST_FREE` / `rawArrayFree`). -/
structure RefState where
  count : Nat
  frees : Nat
deriving DecidableEq, Repr

/-- `Array::decrement()` (multiarray.hpp lines 602-615, legacy lines
2089-2098) as executed by one alias being dropped: decrement the shared
counter; if it reached zero, free the storage (and delete the counter).
The aliases are symmetric, so dropping them "in any order" is the same
sequence of steps on the shared state. -/
def decrement (s : RefState) : RefState :=
  let c := s.count - 1
  { count := c, frees := if c = 0 then s.frees + 1 else s.frees }

/-- Dropping `j` aliases one after another. -/
def dropAliases (j : Nat) (s : RefState) : RefState :=
  decrement^[j] s

/-- `(uint64_t)(-1)`, the default `seed` argument of `fillRandom`. -/
def UINT64_MAX : Nat := 2 ^ 64 - 1

/-- The three function-local `static` variables of `Array::fillRandom`
(legacy multiarray.hpp lines 1275-1277). -/
structure SeedState where
  statSeed : Nat
  prevSeed : Nat
  statSeedSet : Bool
deriving DecidableEq, Repr

/-- Their initial values: `statSeed = 0`, `prevSeed = (uint64_t)(-1)`,
`statSeedSet = false`. -/
def initialSeedState : SeedState :=
  ⟨0, UINT64_MAX, false⟩

/-- The seed update of one `Array::fillRandom(min, max, seed)` call
(legacy multiarray.hpp lines 1279-1283).  `wallClock` models the value
`(uint64_t)(seconds() * 10)` observed by this call; `seconds()` itself is
an out-of-scope timing utility.  The PRNG then uses `statSeed` of the
returned state. -/
def fillRandomSeed (wallClock seed : Nat) (s : SeedState) : SeedState :=
  if s.prevSeed != seed || !s.statSeedSet || seed != UINT64_MAX then
    { statSeed := if seed == UINT64_MAX then wallClock else seed
      prevSeed := seed
      statSeedSet := true }
  else
    s

/-- One operand of the legacy N-ary map kernel: the runtime fields the
validation in `mapKernelGetPointers` inspects. -/
structure MapOperand where
  dtype : Datatype
  extent : Extent
  stride : Stride
deriving DecidableEq, Repr

/-- The per-operand test of the legacy variadic
`Array::mapKernelGetPointers` (legacy multiarray.hpp lines 1391-1397):
the operand passes unless `typeToDatatype<PTR>() != first.m_dtype ||
!first.m_stride.isContiguous() || first.m_extent != e || first.m_dtype
!= d`.  `ptrType` is the datatype of the kernel's pointer type `PTR`. -/
def mapOperandOk (ptrType d : Datatype) (e : Extent) (x : MapOperand) : Bool :=
  !(ptrType != x.dtype || !x.stride.isContiguous || x.extent != e
      || x.dtype != d)

/-- The full recursion of `Array::mapKernelGetPointers` (legacy
multiarray.hpp lines 1377-1401): each operand is tested and then the
recursion continues, except that the single-argument base case (lines
1377-1382) extracts the pointer with NO validation, so the last operand
of the pack is never checked. -/
def mapKernelGetPointersOk (ptrType d : Datatype) (e : Extent) :
    List MapOperand → Bool
  | [] => true
  | [_] => true
  | x :: rest =>
    mapOperandOk ptrType d e x && mapKernelGetPointersOk ptrType d e rest

/-- One argument of the current header's `CWiseMap`: either a scalar
(`internal::traits<First>::IsScalar`, a compile-time scalar type, which
broadcasts) or an array carrying an extent. -/
inductive MapArg where
  | scalar
  | arr (e : Extent)
deriving DecidableEq, Repr, BEq

/-- `mapping::extractAndCheckExtent` (cwisemap.hpp lines 56-78): scalars
are skipped; a non-scalar head whose tail still contains a non-scalar is
asserted (`LR_ASSERT`, modelled as `.error`) to have the same extent as
the extent extracted from the tail; the single-argument base case returns
the argument itself. -/
def extractAndCheckExtent : List MapArg → Except Unit MapArg
  | [] => .ok .scalar
  | [x] => .ok x
  | .scalar :: rest => extractAndCheckExtent rest
  | .arr e :: rest =>
    if rest.all (fun r => decide (r = MapArg.scalar)) then
      .ok (.arr e)
    else
      match extractAndCheckExtent rest with
      | .ok (.arr e2) => if e = e2 then .ok (.arr e) else .error ()
      | .ok .scalar => .ok (.arr e)
      | .error u => .error u

/-- The extents of the non-scalar arguments, in order. -/
def nonScalarExtents (args : List MapArg) : List Extent :=
  args.filterMap (fun a => match a with
    | .scalar => none
    | .arr e => some e)

/-- Whether every element of the list equals the first. -/
def allEqHead : List Extent → Bool
  | [] => true
  | e :: rest => rest.all (fun x => x == e)

/-- Two's-complement wrap of an integer to 32 bits (`int32_t`). -/
def wrap32 (v : Int) : Int :=
  (v + 2 ^ 31) % 2 ^ 32 - 2 ^ 31

/-- Two's-complement wrap of an integer to 64 bits (`int64_t`). -/
def wrap64 (v : Int) : Int :=
  (v + 2 ^ 63) % 2 ^ 64 - 2 ^ 63

/-- The value stored by `*data = val` through the dtype-typed pointer of
the `std::visit` in the scalar constructor (legacy multiarray.hpp line
296).  Integer dtypes wrap; for the floating and complex dtypes the
conversion is modelled from the spec ("writes the value converted to the
requested dtype") as exact, since floating-point rounding is out of
scope; for `NONE` / `VALIDNONE` no typed store exists and the value is
kept unchanged. -/
def convertScalar (d : Datatype) (v : Int) : Int :=
  match d with
  | .INT32 => wrap32 v
  | .INT64 => wrap64 v
  | _ => v

/-- Everything the scalar constructor produces: the array object, the
allocation performed by `constructNew` (element count and device) and
the value written into the single element. -/
structure ScalarCtorResult where
  arr : Array
  allocElems : Int
  allocLoc : Accelerator
  stored : Int
deriving DecidableEq, Repr

/-- The integral scalar constructor `Array(T val, Datatype dtype =
INT64, Accelerator locn = CPU)` (legacy multiarray.hpp lines 287-313):
`constructNew(Extent(1), Stride(1), dtype, locn)` — modelled from the
spec, its body is in a translation unit not under `src/`: it allocates
`extent.size()` elements on `locn` — then `m_isScalar = true` and the
value is written converted to `dtype`.  The current header declares the
same scalar constructors (multiarray.hpp lines 241-253) with bodies in a
missing translation unit; spec §4.3 gives them the same behaviour. -/
def arrayFromIntScalar (v : Int) (d : Datatype := .INT64)
    (l : Accelerator := .CPU) : ScalarCtorResult :=
  let e : Extent := [1]
  { arr :=
      { location := l
        dtype := d
        extent := e
        stride := ⟨[1], true, true⟩
        isScalar := true
        isChild := false
        hasRefs := true }
    allocElems := extentSize e
    allocLoc := l
    stored := convertScalar d v }

/-- The range test of the `ValueReference<bool, d>` constructor assertion
`LR_ASSERT(bit >= 0 && bit < 512, ...)` (valueReference.hpp lines
108-113); `bit` is a `uint16_t`, so `bit >= 0` always holds. -/
def valueReferenceBoolBitOk (bit : Nat) : Bool :=
  decide (0 ≤ bit) && decide (bit < 512)

/-- The upper bound the assertion actually enforces. -/
def valueReferenceBoolEnforcedBound : Nat := 512

/-- The upper bound named by the assertion's error message, which
describes the accepted range as `[0, 64)` (valueReference.hpp lines
110-112). -/
def valueReferenceBoolMessageBound : Nat := 64

/-- `ValueReference<bool, CPU>::get` (valueReference.hpp line 130):
`*m_value & (1ull << m_bit)` converted to `bool`.  The referenced 64-bit
word is a `Nat < 2 ^ 64`. -/
def boolRefGet (w bit : Nat) : Bool :=
  w &&& (1 <<< bit) != 0

/-- `ValueReference<bool, CPU>::set` (valueReference.hpp lines 137-143):
`*m_value |= (1ull << bit)` or `*m_value &= ~(1ull << bit)`; the 64-bit
complement `~x` is `(2 ^ 64 - 1) ^^^ x`. -/
def boolRefSet (w bit : Nat) (v : Bool) : Nat :=
  if v then w ||| (1 <<< bit)
  else w &&& ((2 ^ 64 - 1) ^^^ (1 <<< bit))

/-! Concrete arrays used by the counterexamples and witnesses. -/

/-- A scalar array as built by the scalar constructors: extent `[1]`,
trivial stride, `m_isScalar = true`. -/
def scalarOne : Array :=
  { location := .CPU
    dtype := .INT64
    extent := [1]
    stride := ⟨[1], true, true⟩
    isScalar := true
    isChild := false
    hasRefs := true }

/-- A freshly allocated 2 × 3 array. -/
def arr23 : Array := mkArray [2, 3] .INT64 .CPU

/-- A freshly allocated 2 × 2 array. -/
def arr22 : Array := mkArray [2, 2] .FLOAT64 .CPU

/-- A 2 × 2 array whose stride has been permuted by `transpose` (stride
vector `[1, 2]`, both cached flags cleared). -/
def arr22T : Array :=
  { location := .CPU
    dtype := .FLOAT64
    extent := [2, 2]
    stride := ⟨[1, 2], false, false⟩
    isScalar := false
    isChild := false
    hasRefs := true }

/-- A shape-`[1]` array built from an extent, so `m_isScalar = false`. -/
def arr1 : Array := mkArray [1] .FLOAT64 .CPU

/-- A shape-`[1]` destination whose `m_isScalar` flag is already set. -/
def arr1Scalar : Array := { arr1 with dtype := .INT64, isScalar := true }

/-! Helper characterizations of the four binary entry points, shared by
the claims below. -/

theorem applyBinaryOp_shapeError_iff (a b : Array) :
    applyBinaryOp a b = .error .shapeMismatch ↔
      (a.isScalar = false ∧ b.isScalar = false ∧ a.extent ≠ b.extent) := by
  unfold applyBinaryOp
  split
  · rename_i h
    simp only [Bool.and_eq_true, Bool.not_eq_true', Bool.or_eq_false_iff,
      bne_iff_ne] at h
    simp [h.1.1, h.1.2, h.2]
  · rename_i h
    simp only [Bool.and_eq_true, Bool.not_eq_true', Bool.or_eq_false_iff,
      bne_iff_ne, not_and, not_not] at h
    constructor
    · intro hcontra
      exfalso
      revert hcontra
      split <;> simp
    · intro ⟨ha, hb, hne⟩
      exact absurd (h ⟨ha, hb⟩) hne

theorem applyBinaryOpTo_shapeError_iff (a b res : Array) :
    applyBinaryOpTo a b res = .error .shapeMismatch ↔ a.extent ≠ b.extent := by
  unfold applyBinaryOpTo
  split
  · rename_i h
    simp only [bne_iff_ne] at h
    simp [h]
  · rename_i h
    simp only [bne_iff_ne, not_not] at h
    constructor
    · intro hcontra
      exfalso
      revert hcontra
      split
      · simp
      · split <;> simp
    · intro hne
      exact absurd h hne

theorem legacyApplyBinaryOp_shapeError_iff (a b : Array) :
    legacyApplyBinaryOp a b = .error .shapeMismatch ↔
      (a.isScalar = false ∧ b.isScalar = false ∧ a.extent ≠ b.extent) := by
  unfold legacyApplyBinaryOp
  split
  · rename_i h
    simp only [Bool.and_eq_true, Bool.not_eq_true', Bool.or_eq_false_iff,
      bne_iff_ne] at h
    simp [h.1.1, h.1.2, h.2]
  · rename_i h
    simp only [Bool.and_eq_true, Bool.not_eq_true', Bool.or_eq_false_iff,
      bne_iff_ne, not_and, not_not] at h
    constructor
    · intro hcontra
      exfalso
      revert hcontra
      repeat' split
      all_goals simp
    · intro ⟨ha, hb, hne⟩
      exact absurd (h ⟨ha, hb⟩) hne

theorem legacyApplyBinaryOpTo_shapeError_iff (a b dst : Array) :
    legacyApplyBinaryOpTo a b dst = .error .shapeMismatch ↔
      (a.isScalar = false ∧ b.isScalar = false ∧ a.extent ≠ b.extent) := by
  unfold legacyApplyBinaryOpTo
  split
  · rename_i h
    simp only [Bool.and_eq_true, Bool.not_eq_true', bne_iff_ne] at h
    simp [h.1.1, h.1.2, h.2]
  · rename_i h
    simp only [Bool.and_eq_true, Bool.not_eq_true', bne_iff_ne, not_and,
      not_not] at h
    constructor
    · intro hcontra
      exfalso
      revert hcontra
      repeat' split
      all_goals simp
    · intro ⟨ha, hb, hne⟩
      exact absurd (h ⟨ha, hb⟩) hne

theorem applyBinaryOp_run (a b : Array)
    (h : ¬(a.isScalar = false ∧ b.isScalar = false ∧ a.extent ≠ b.extent)) :
    applyBinaryOp a b = .ok
      ⟨{ mkArray a.extent (maxDatatype a.dtype b.dtype)
           (maxAccelerator a.location b.location) with
         stride := if binaryTrivialCond a b then a.stride
           else strideFromExtent a.extent
         isScalar := a.isScalar && b.isScalar },
       if binaryTrivialCond a b then .trivialPath else .stridedPath⟩ := by
  unfold applyBinaryOp
  rw [if_neg (by
    simp only [Bool.and_eq_true, Bool.not_eq_true', Bool.or_eq_false_iff,
      bne_iff_ne]
    tauto)]
  by_cases hc : binaryTrivialCond a b = true <;>
    cases ha : a.isScalar <;> cases hb : b.isScalar <;>
      simp [hc, ha, hb, mkArray]

theorem applyBinaryOpTo_run (a b res : Array) (hab : a.extent = b.extent)
    (hres : res.hasRefs = true) (hre : res.extent = a.extent) :
    applyBinaryOpTo a b res = .ok
      ⟨{ res with
         stride := if binaryTrivialCond a b then a.stride else res.stride
         isScalar := res.isScalar || (a.isScalar && b.isScalar) },
       if binaryTrivialCond a b then .trivialPath else .stridedPath⟩ := by
  unfold applyBinaryOpTo
  rw [if_neg (by simp [hab]), if_neg (by simp [hres, hre])]
  by_cases hc : binaryTrivialCond a b = true <;> simp [hc]

theorem legacyApplyBinaryOp_run (a b : Array)
    (h : ¬(a.isScalar = false ∧ b.isScalar = false ∧ a.extent ≠ b.extent)) :
    legacyApplyBinaryOp a b = .ok
      ⟨{ mkArray (if a.isScalar then b.extent else a.extent)
           (maxDatatype a.dtype b.dtype)
           (maxAccelerator a.location b.location) with
         stride := if binaryTrivialCond a b then
             (if a.isScalar then b.stride else a.stride)
           else strideFromExtent (if a.isScalar then b.extent else a.extent)
         isScalar := a.isScalar && b.isScalar },
       if binaryTrivialCond a b then .trivialPath else .stridedPath⟩ := by
  unfold legacyApplyBinaryOp
  rw [if_neg (by
    simp only [Bool.and_eq_true, Bool.not_eq_true', Bool.or_eq_false_iff,
      bne_iff_ne]
    tauto)]
  by_cases hc : binaryTrivialCond a b = true <;>
    cases ha : a.isScalar <;> cases hb : b.isScalar <;>
      simp [hc, ha, hb, mkArray]

theorem legacyApplyBinaryOpTo_run (a b dst : Array)
    (h : ¬(a.isScalar = false ∧ b.isScalar = false ∧ a.extent ≠ b.extent))
    (hd : dst.hasRefs = true) (hde : dst.extent = a.extent) :
    legacyApplyBinaryOpTo a b dst = .ok
      ⟨{ dst with
         stride := if binaryTrivialCond a b then
             (if a.isScalar then b.stride else a.stride)
           else dst.stride
         isScalar := dst.isScalar || (a.isScalar && b.isScalar) },
       if binaryTrivialCond a b then .trivialPath else .stridedPath⟩ := by
  unfold legacyApplyBinaryOpTo
  rw [if_neg (by
    simp only [Bool.and_eq_true, Bool.not_eq_true', bne_iff_ne]
    tauto), if_neg (by simp [hd, hde])]
  by_cases hc : binaryTrivialCond a b = true <;>
    cases ha : a.isScalar <;> simp [hc, ha]

theorem applyUnaryOp_run (a res : Array) (hres : res.hasRefs = true)
    (hre : res.extent = a.extent) :
    applyUnaryOp a res = .ok
      ⟨{ res with isScalar := a.isScalar },
       if a.stride.trivialContiguous then .trivialPath
         else .stridedPath⟩ := by
  unfold applyUnaryOp
  rw [if_neg (by simp [hres, hre])]
  by_cases hc : a.stride.trivialContiguous = true <;> simp [hc]

theorem legacyApplyUnaryOp_run (dst src : Array) (hd : dst.hasRefs = true)
    (hde : dst.extent = src.extent) :
    legacyApplyUnaryOp dst src = .ok
      ⟨{ dst with isScalar := src.isScalar },
       if dst.stride.trivialContiguous && src.stride.trivialContiguous then
         .trivialPath
       else .stridedPath⟩ := by
  unfold legacyApplyUnaryOp
  rw [if_neg (by simp [hd, hde])]
  by_cases hc :
      (dst.stride.trivialContiguous && src.stride.trivialContiguous) = true <;>
    simp [hc]

/-! Claim C1: shape checks of the binary entry points. -/

/-- C1 counterexample: the in-place `applyBinaryOp` of the current header
(multiarray.hpp line 455) rejects a scalar left operand against a 2 × 3
right operand with the shape-mismatch error, although the claim says the
shape check passes whenever at least one operand is a scalar. -/
theorem applyBinaryOpTo_rejects_scalar_operand :
    applyBinaryOpTo scalarOne arr23 arr23 = .error .shapeMismatch ∧
      scalarOne.isScalar = true ∧ arr23.extent = [2, 3] ∧
      scalarOne.extent = [1] :=
  ⟨rfl, rfl, rfl, rfl⟩

/-- C1 (amended): when neither operand is scalar and the extents differ,
all four `applyBinaryOp` entry points fail with the shape-mismatch error
before any write; the scalar exemption (check passes when at least one
operand is scalar) holds for the two fresh-result entry points and the
legacy in-place entry point, while the in-place entry point of the
current header raises the shape-mismatch error exactly when the extents
differ, scalar or not. -/
theorem binaryOp_shape_checks (a b res : Array) :
    (a.isScalar = false → b.isScalar = false → a.extent ≠ b.extent →
      applyBinaryOp a b = .error .shapeMismatch ∧
      applyBinaryOpTo a b res = .error .shapeMismatch ∧
      legacyApplyBinaryOp a b = .error .shapeMismatch ∧
      legacyApplyBinaryOpTo a b res = .error .shapeMismatch) ∧
    ((a.extent = b.extent ∨ a.isScalar = true ∨ b.isScalar = true) →
      applyBinaryOp a b ≠ .error .shapeMismatch ∧
      legacyApplyBinaryOp a b ≠ .error .shapeMismatch ∧
      legacyApplyBinaryOpTo a b res ≠ .error .shapeMismatch) ∧
    (applyBinaryOpTo a b res = .error .shapeMismatch ↔
      a.extent ≠ b.extent) := by
  refine ⟨?_, ?_, applyBinaryOpTo_shapeError_iff a b res⟩
  · intro ha hb hne
    exact ⟨(applyBinaryOp_shapeError_iff a b).2 ⟨ha, hb, hne⟩,
      (applyBinaryOpTo_shapeError_iff a b res).2 hne,
      (legacyApplyBinaryOp_shapeError_iff a b).2 ⟨ha, hb, hne⟩,
      (legacyApplyBinaryOpTo_shapeError_iff a b res).2 ⟨ha, hb, hne⟩⟩
  · intro hp
    have hnot :
        ¬(a.isScalar = false ∧ b.isScalar = false ∧ a.extent ≠ b.extent) := by
      rintro ⟨h1, h2, h3⟩
      rcases hp with h | h | h <;> simp_all
    exact ⟨fun hc => hnot ((applyBinaryOp_shapeError_iff a b).1 hc),
      fun hc => hnot ((legacyApplyBinaryOp_shapeError_iff a b).1 hc),
      fun hc => hnot ((legacyApplyBinaryOpTo_shapeError_iff a b res).1 hc)⟩

/-- Witness for `binaryOp_shape_checks`: two non-scalar arrays of
different extents are rejected by the fresh-result entry points. -/
theorem binaryOp_shape_checks_witness :
    applyBinaryOp arr22 arr23 = .error .shapeMismatch ∧
      legacyApplyBinaryOp arr22 arr23 = .error .shapeMismatch :=
  have h := (binaryOp_shape_checks arr22 arr23 arr23).1 rfl rfl (by decide)
  ⟨h.1, h.2.2.1⟩

/-! Claim C2: reference counting frees the shared storage exactly once. -/

/-- Auxiliary: the exact state after `j ≤ c` decrements of a counter that
starts at `c ≥ 1`: the storage is freed at the last decrement only. -/
theorem dropAliases_spec (j : Nat) :
    ∀ c f : Nat, 1 ≤ c → j ≤ c →
      dropAliases j ⟨c, f⟩ = ⟨c - j, if j = c then f + 1 else f⟩ := by
  induction j with
  | zero =>
    intro c f hc hj
    have : ¬(0 = c) := by omega
    simp [dropAliases, this]
  | succ n ih =>
    intro c f hc hj
    have hstep : dropAliases (n + 1) (⟨c, f⟩ : RefState) =
        dropAliases n (decrement ⟨c, f⟩) := by
      simp [dropAliases, Function.iterate_succ_apply]
    rw [hstep]
    by_cases h1 : c = 1
    · subst h1
      have hn : n = 0 := by omega
      subst hn
      simp [decrement, dropAliases]
    · have hdec : decrement ⟨c, f⟩ = ⟨c - 1, f⟩ := by
        have : ¬(c - 1 = 0) := by omega
        simp [decrement, this]
      rw [hdec, ih (c - 1) f (by omega) (by omega)]
      have hiff : (n = c - 1) ↔ (n + 1 = c) := by omega
      have harith : c - 1 - n = c - (n + 1) := by omega
      simp [hiff, harith]

/-- C2: a storage shared by `k ≥ 1` aliases, each holding one increment
of the shared counter, is freed exactly once by dropping all `k`
aliases — at the `k`-th drop and not before — so no live alias ever
observes a freed buffer.  The drops are symmetric steps on the shared
state, hence order-independent. -/
theorem refcount_frees_once (k j : Nat) (hk : 1 ≤ k) (hj : j ≤ k) :
    (dropAliases j ⟨k, 0⟩).count = k - j ∧
      (dropAliases j ⟨k, 0⟩).frees = (if j = k then 1 else 0) := by
  rw [dropAliases_spec j k 0 hk hj]
  constructor
  · rfl
  · by_cases h : j = k <;> simp [h]

/-- Witness for `refcount_frees_once`: with three aliases, the first two
drops free nothing and the third frees exactly once. -/
theorem refcount_frees_once_witness :
    (dropAliases 2 ⟨3, 0⟩).frees = 0 ∧ (dropAliases 3 ⟨3, 0⟩).frees = 1 := by
  have h2 := (refcount_frees_once 3 2 (by norm_num) (by norm_num)).2
  have h3 := (refcount_frees_once 3 3 (by norm_num) (by norm_num)).2
  simp only [show ¬(2 = 3) from by omega, if_false, if_pos rfl] at h2 h3
  exact ⟨h2, h3⟩

/-! Claim C3: dtype and device promotion of the fresh-result binary
entry points. -/

/-- `maxDatatype` picks the dtype with the larger enumerator ordinal. -/
theorem maxDatatype_ordinal (x y : Datatype) :
    (maxDatatype x y).ordinal = max x.ordinal y.ordinal := by
  cases x <;> cases y <;> decide

/-- `maxAccelerator` is `GPU` exactly when one side is `GPU`. -/
theorem maxAccelerator_gpu_iff (x y : Accelerator) :
    maxAccelerator x y = .GPU ↔ (x = .GPU ∨ y = .GPU) := by
  cases x <;> cases y <;> decide

/-- Two concrete operands for the promotion witness. -/
def arrInt32Cpu : Array := mkArray [2, 2] .INT32 .CPU

/-- A GPU, `FLOAT32` operand of the same extent. -/
def arrFloat32Gpu : Array := mkArray [2, 2] .FLOAT32 .GPU

/-- C3: both fresh-result binary entry points give the result the
promoted dtype — the operand dtype with the larger enum ordinal — and
place it on `GPU` exactly when an operand lives on `GPU`, on `CPU`
otherwise. -/
theorem binaryOp_type_device_promotion (a b : Array)
    (hpass : ¬(a.isScalar = false ∧ b.isScalar = false ∧ a.extent ≠ b.extent))
    (ha : a.location ≠ .NONE) (hb : b.location ≠ .NONE) :
    ∃ r s, applyBinaryOp a b = .ok r ∧ legacyApplyBinaryOp a b = .ok s ∧
      r.res.dtype = maxDatatype a.dtype b.dtype ∧
      s.res.dtype = maxDatatype a.dtype b.dtype ∧
      r.res.dtype.ordinal = max a.dtype.ordinal b.dtype.ordinal ∧
      (r.res.location = .GPU ↔ (a.location = .GPU ∨ b.location = .GPU)) ∧
      (a.location ≠ .GPU → b.location ≠ .GPU → r.res.location = .CPU) ∧
      s.res.location = r.res.location := by
  refine ⟨_, _, applyBinaryOp_run a b hpass, legacyApplyBinaryOp_run a b hpass,
    rfl, rfl, maxDatatype_ordinal _ _, maxAccelerator_gpu_iff _ _, ?_, rfl⟩
  have hloc : ∀ x y : Accelerator, x ≠ .NONE → y ≠ .NONE → x ≠ .GPU →
      y ≠ .GPU → maxAccelerator x y = .CPU := by
    intro x y
    cases x <;> cases y <;> decide
  intro hgx hgy
  exact hloc a.location b.location ha hb hgx hgy

/-- Witness for `binaryOp_type_device_promotion` on an `(INT32, CPU)`
and a `(FLOAT32, GPU)` operand. -/
theorem binaryOp_type_device_promotion_witness :
    ∃ r s, applyBinaryOp arrInt32Cpu arrFloat32Gpu = .ok r ∧
      legacyApplyBinaryOp arrInt32Cpu arrFloat32Gpu = .ok s ∧
      r.res.dtype = maxDatatype arrInt32Cpu.dtype arrFloat32Gpu.dtype ∧
      s.res.dtype = maxDatatype arrInt32Cpu.dtype arrFloat32Gpu.dtype ∧
      r.res.dtype.ordinal =
        max arrInt32Cpu.dtype.ordinal arrFloat32Gpu.dtype.ordinal ∧
      (r.res.location = .GPU ↔
        (arrInt32Cpu.location = .GPU ∨ arrFloat32Gpu.location = .GPU)) ∧
      (arrInt32Cpu.location ≠ .GPU → arrFloat32Gpu.location ≠ .GPU →
        r.res.location = .CPU) ∧
      s.res.location = r.res.location :=
  binaryOp_type_device_promotion arrInt32Cpu arrFloat32Gpu (by decide)
    (by decide) (by decide)

/-! Claim C4: the destination stride after a binary materialization. -/

/-- C4 counterexample: the fresh-result `applyBinaryOp` of the current
header takes the fast path on a scalar `a` and a trivial 2 × 3 `b`, and
sets the destination stride to `a`'s stride `[1]` (multiarray.hpp line
524 assigns `res.m_stride = a.m_stride` unconditionally), not to the
non-scalar operand's stride `[3, 1]` as the claim states. -/
theorem applyBinaryOp_scalar_stride_mismatch :
    (applyBinaryOp scalarOne arr23).map (fun r => (r.path, r.res.stride.vals))
        = .ok (.trivialPath, [1]) ∧
      arr23.stride.vals = [3, 1] ∧ scalarOne.isScalar = true ∧
      arr23.isScalar = false ∧ ([1] : List Int) ≠ [3, 1] :=
  ⟨rfl, rfl, rfl, rfl, by decide⟩

/-- C4 (amended): on the fast path the legacy fresh-result entry point
sets the destination stride to the stride of the non-scalar operand
(`b`'s stride when `a` is scalar, else `a`'s), while the current header's
fresh-result entry point always sets it to `a`'s stride; on the strided
path both leave the freshly allocated destination with its trivial,
contiguous stride. -/
theorem binaryOp_result_stride (a b : Array)
    (hpass :
      ¬(a.isScalar = false ∧ b.isScalar = false ∧ a.extent ≠ b.extent)) :
    (∀ r, applyBinaryOp a b = .ok r →
      (r.path = .trivialPath → r.res.stride = a.stride) ∧
      (r.path = .stridedPath → r.res.stride = strideFromExtent a.extent ∧
        r.res.stride.trivialContiguous = true)) ∧
    (∀ r, legacyApplyBinaryOp a b = .ok r →
      (r.path = .trivialPath →
        r.res.stride = (if a.isScalar then b.stride else a.stride)) ∧
      (r.path = .stridedPath →
        r.res.stride =
          strideFromExtent (if a.isScalar then b.extent else a.extent) ∧
        r.res.stride.trivialContiguous = true)) := by
  constructor
  · intro r hr
    rw [applyBinaryOp_run a b hpass] at hr
    injection hr with h
    subst h
    by_cases hc : binaryTrivialCond a b = true <;>
      simp [hc, strideFromExtent, Stride.trivialContiguous]
  · intro r hr
    rw [legacyApplyBinaryOp_run a b hpass] at hr
    injection hr with h
    subst h
    by_cases hc : binaryTrivialCond a b = true <;>
      simp [hc, strideFromExtent, Stride.trivialContiguous]

/-- Witness for `binaryOp_result_stride`: a trivial and a transposed
2 × 2 operand take the strided path and the fresh destination keeps its
trivial, contiguous stride. -/
theorem binaryOp_result_stride_witness :
    ∃ r, applyBinaryOp arr22 arr22T = .ok r ∧ r.path = .stridedPath ∧
      r.res.stride = strideFromExtent arr22.extent ∧
      r.res.stride.trivialContiguous = true := by
  have hrun : applyBinaryOp arr22 arr22T = .ok _ := rfl
  have h := ((binaryOp_result_stride arr22 arr22T (by decide)).1 _ hrun).2
  exact ⟨_, hrun, rfl, (h rfl).1, (h rfl).2⟩

/-! Claim C5: which operands the path dispatch inspects. -/

/-- C5 counterexample: the current header's unary dispatcher takes the
trivial path whenever the SOURCE is trivial-contiguous, even though the
destination `arr22T` is neither trivial-and-contiguous nor shares the
source's stride — the claim's condition is violated. -/
theorem applyUnaryOp_ignores_destination_stride :
    (applyUnaryOp arr22 arr22T).map (fun r => r.path) = .ok .trivialPath ∧
      arr22T.stride.trivialContiguous = false ∧
      arr22T.stride.vals ≠ arr22.stride.vals :=
  ⟨rfl, rfl, by decide⟩

/-- C5 (amended): the trivial path is chosen from the SOURCE operands'
strides only.  The current header's unary dispatcher takes it iff the
source is trivial-and-contiguous (the destination is never examined);
the legacy unary dispatcher additionally requires the destination to be
trivial-and-contiguous; the binary dispatchers take it iff both sources
are trivial-and-contiguous or the two source strides are equal, again
without examining the destination. -/
theorem dispatch_path_conditions (a b res dst src : Array) :
    (∀ r, applyUnaryOp a res = .ok r →
      (r.path = .trivialPath ↔ a.stride.trivialContiguous = true)) ∧
    (∀ r, legacyApplyUnaryOp dst src = .ok r →
      (r.path = .trivialPath ↔
        (dst.stride.trivialContiguous = true ∧
          src.stride.trivialContiguous = true))) ∧
    (∀ r, applyBinaryOp a b = .ok r →
      (r.path = .trivialPath ↔ binaryTrivialCond a b = true)) ∧
    (∀ r, applyBinaryOpTo a b res = .ok r →
      (r.path = .trivialPath ↔ binaryTrivialCond a b = true)) ∧
    (binaryTrivialCond a b = true ↔
      ((a.stride.trivialContiguous = true ∧
          b.stride.trivialContiguous = true) ∨
        a.stride.vals = b.stride.vals)) := by
  refine ⟨?_, ?_, ?_, ?_, ?_⟩
  · intro r hr
    unfold applyUnaryOp at hr
    repeat' split at hr
    all_goals first
      | (exact Except.noConfusion hr)
      | (injection hr with h; subst h; simp_all)
  · intro r hr
    unfold legacyApplyUnaryOp at hr
    repeat' split at hr
    all_goals first
      | (exact Except.noConfusion hr)
      | (injection hr with h; subst h; simp_all)
  · intro r hr
    unfold applyBinaryOp at hr
    repeat' split at hr
    all_goals first
      | (exact Except.noConfusion hr)
      | (injection hr with h; subst h; simp_all)
  · intro r hr
    unfold applyBinaryOpTo at hr
    repeat' split at hr
    all_goals first
      | (exact Except.noConfusion hr)
      | (injection hr with h; subst h; simp_all)
  · simp [binaryTrivialCond, Bool.or_eq_true, Bool.and_eq_true, beq_iff_eq]

/-- Witness for `dispatch_path_conditions`: with a trivial-contiguous
destination and source, the legacy unary dispatcher takes the trivial
path. -/
theorem dispatch_path_conditions_witness :
    ∃ r, legacyApplyUnaryOp arr22 arr22 = .ok r ∧ r.path = .trivialPath := by
  have hrun : legacyApplyUnaryOp arr22 arr22 = .ok _ := rfl
  exact ⟨_, hrun,
    ((dispatch_path_conditions arr22 arr22 arr22 arr22 arr22).2.1 _ hrun).2
      ⟨rfl, rfl⟩⟩

/-! Claim C6: the scalar flag of the destination. -/

/-- C6 counterexample: the in-place entry point only ever SETS the
destination's scalar flag (multiarray.hpp lines 491-492); materializing
two non-scalar shape-`[1]` operands into a destination whose flag is
already set leaves `isScalar = true`, so the claimed "iff every source
operand is scalar" fails. -/
theorem applyBinaryOpTo_keeps_stale_scalar_flag :
    (applyBinaryOpTo arr1 arr1 arr1Scalar).map (fun r => r.res.isScalar)
        = .ok true ∧
      arr1.isScalar = false :=
  ⟨rfl, rfl⟩

/-- C6 (amended): for the two fresh-result entry points the destination's
scalar flag is true iff both operands are scalar; the two in-place entry
points compute `dst.isScalar ∨ (a.isScalar ∧ b.isScalar)`, i.e. they
never clear a destination flag that was already set. -/
theorem binaryOp_isScalar_after (a b res : Array) :
    (∀ r, applyBinaryOp a b = .ok r →
      (r.res.isScalar = true ↔
        (a.isScalar = true ∧ b.isScalar = true))) ∧
    (∀ r, legacyApplyBinaryOp a b = .ok r →
      (r.res.isScalar = true ↔
        (a.isScalar = true ∧ b.isScalar = true))) ∧
    (∀ r, applyBinaryOpTo a b res = .ok r →
      r.res.isScalar = (res.isScalar || (a.isScalar && b.isScalar))) ∧
    (∀ r, legacyApplyBinaryOpTo a b res = .ok r →
      r.res.isScalar = (res.isScalar || (a.isScalar && b.isScalar))) := by
  refine ⟨?_, ?_, ?_, ?_⟩
  · intro r hr
    unfold applyBinaryOp at hr
    repeat' split at hr
    all_goals first
      | (exact Except.noConfusion hr)
      | (injection hr with h; subst h; simp_all [mkArray])
  · intro r hr
    unfold legacyApplyBinaryOp at hr
    repeat' split at hr
    all_goals first
      | (exact Except.noConfusion hr)
      | (injection hr with h; subst h; simp_all [mkArray])
  · intro r hr
    unfold applyBinaryOpTo at hr
    repeat' split at hr
    all_goals first
      | (exact Except.noConfusion hr)
      | (injection hr with h; subst h; simp_all)
  · intro r hr
    unfold legacyApplyBinaryOpTo at hr
    repeat' split at hr
    all_goals first
      | (exact Except.noConfusion hr)
      | (injection hr with h; subst h; simp_all)

/-- Witness for `binaryOp_isScalar_after`: two scalar operands give a
scalar fresh result. -/
theorem binaryOp_isScalar_after_witness :
    ∃ r, applyBinaryOp scalarOne scalarOne = .ok r ∧
      r.res.isScalar = true := by
  have hrun : applyBinaryOp scalarOne scalarOne = .ok _ := rfl
  exact ⟨_, hrun,
    ((binaryOp_isScalar_after scalarOne scalarOne arr1).1 _ hrun).2
      ⟨rfl, rfl⟩⟩

/-! Claim C7: map-kernel operand validation. -/

/-- The non-scalar extents vanish exactly when every argument is a
compile-time scalar. -/
theorem nonScalarExtents_nil_iff (xs : List MapArg) :
    nonScalarExtents xs = [] ↔
      xs.all (fun r => decide (r = MapArg.scalar)) = true := by
  induction xs with
  | nil => simp [nonScalarExtents]
  | cons x t ih =>
    cases x with
    | scalar => simpa [nonScalarExtents, List.filterMap_cons] using ih
    | arr e => simp [nonScalarExtents, List.filterMap_cons]

/-- Unfolding `nonScalarExtents` over a scalar head. -/
theorem nonScalarExtents_cons_scalar (t : List MapArg) :
    nonScalarExtents (.scalar :: t) = nonScalarExtents t := rfl

/-- Unfolding `nonScalarExtents` over an array head. -/
theorem nonScalarExtents_cons_arr (e : Extent) (t : List MapArg) :
    nonScalarExtents (.arr e :: t) = e :: nonScalarExtents t := rfl

/-- A tail that already disagrees internally still disagrees with any
head prepended. -/
theorem allEqHead_cons_false (e : Extent) (l : List Extent)
    (h : allEqHead l = false) : allEqHead (e :: l) = false := by
  cases l with
  | nil => simp [allEqHead] at h
  | cons a t =>
    by_cases hae : a = e
    · subst hae
      simp only [allEqHead, List.all_cons] at h ⊢
      simp_all
    · simp only [allEqHead, List.all_cons]
      simp [hae]

/-- What `extractAndCheckExtent` returns, case by case: an extent result
is the common extent of all non-scalar arguments, a scalar result means
every argument was scalar, and an assertion failure means the non-scalar
extents disagree. -/
theorem extractAndCheckExtent_spec (args : List MapArg) :
    (∀ e, extractAndCheckExtent args = .ok (.arr e) →
      ∀ x ∈ nonScalarExtents args, x = e) ∧
    (extractAndCheckExtent args = .ok .scalar →
      nonScalarExtents args = []) ∧
    (extractAndCheckExtent args = .error () →
      allEqHead (nonScalarExtents args) = false) := by
  induction args with
  | nil => simp [extractAndCheckExtent, nonScalarExtents]
  | cons x t ih =>
    cases t with
    | nil =>
      cases x with
      | scalar => simp [extractAndCheckExtent, nonScalarExtents]
      | arr e => simp [extractAndCheckExtent, nonScalarExtents,
          List.filterMap_cons]
    | cons y t2 =>
      cases x with
      | scalar =>
        simpa [extractAndCheckExtent, nonScalarExtents,
          List.filterMap_cons] using ih
      | arr e =>
        by_cases hall :
            (y :: t2).all (fun r => decide (r = MapArg.scalar)) = true
        · have hnil : nonScalarExtents (y :: t2) = [] :=
            (nonScalarExtents_nil_iff _).2 hall
          simp [extractAndCheckExtent, hall, nonScalarExtents_cons_arr,
            hnil, allEqHead]
        · have hne_nil : nonScalarExtents (y :: t2) ≠ [] := fun hnil =>
            hall ((nonScalarExtents_nil_iff _).1 hnil)
          rcases hrec : extractAndCheckExtent (y :: t2) with u | m
          · cases u
            have h3 := ih.2.2 hrec
            simp only [extractAndCheckExtent, hall, if_false, hrec,
              Bool.false_eq_true]
            refine ⟨?_, ?_, ?_⟩
            · intro e2 hcontra
              exact absurd hcontra (by simp)
            · intro hcontra
              exact absurd hcontra (by simp)
            · intro _
              rw [nonScalarExtents_cons_arr]
              exact allEqHead_cons_false e _ h3
          · cases m with
            | scalar =>
              exact absurd ((nonScalarExtents_nil_iff _).1 (ih.2.1 hrec))
                hall
            | arr e2 =>
              have hx := ih.1 e2 hrec
              by_cases he : e = e2
              · subst he
                simp only [extractAndCheckExtent, hall, if_false, hrec,
                  Bool.false_eq_true, if_pos rfl]
                refine ⟨?_, ?_, ?_⟩
                · intro e3 hok
                  have he3 : e = e3 := by
                    injection hok with h
                    injection h with h2
                  subst he3
                  intro z hz
                  rw [nonScalarExtents_cons_arr] at hz
                  rcases List.mem_cons.1 hz with hz1 | hz1
                  · exact hz1
                  · exact hx z hz1
                · intro hcontra
                  exact absurd hcontra (by simp)
                · intro hcontra
                  exact absurd hcontra (by simp)
              · simp only [extractAndCheckExtent, hall, if_false, hrec,
                  Bool.false_eq_true, if_neg he]
                refine ⟨?_, ?_, ?_⟩
                · intro e3 hcontra
                  exact absurd hcontra (by simp)
                · intro hcontra
                  exact absurd hcontra (by simp)
                · intro _
                  obtain ⟨n0, rest, hns⟩ :
                      ∃ n0 rest, nonScalarExtents (y :: t2) = n0 :: rest := by
                    cases hx2 : nonScalarExtents (y :: t2) with
                    | nil => exact absurd hx2 hne_nil
                    | cons a b => exact ⟨a, b, rfl⟩
                  have hn0 : n0 = e2 := hx n0 (by rw [hns]; simp)
                  rw [nonScalarExtents_cons_arr, hns]
                  have hbeq : (n0 == e) = false := by
                    subst hn0
                    simp only [beq_eq_false_iff_ne, ne_eq]
                    exact fun hc => he hc.symm
                  simp [allEqHead, hbeq]

/-- One unfolding step of the legacy pointer-gathering recursion on a
pack of at least two operands. -/
theorem mapKernelGetPointersOk_cons (p d : Datatype) (e : Extent)
    (x : MapOperand) (t : List MapOperand) (y : MapOperand) :
    mapKernelGetPointersOk p d e ((x :: t) ++ [y]) =
      (mapOperandOk p d e x && mapKernelGetPointersOk p d e (t ++ [y])) := by
  cases t with
  | nil => simp [mapKernelGetPointersOk]
  | cons z t2 => simp [mapKernelGetPointersOk]

/-- The legacy validation checks exactly the operands before the last
one. -/
theorem mapKernelGetPointersOk_append (p d : Datatype) (e : Extent)
    (xs : List MapOperand) (y : MapOperand) (hxs : xs ≠ []) :
    mapKernelGetPointersOk p d e (xs ++ [y]) =
      xs.all (mapOperandOk p d e) := by
  induction xs with
  | nil => cases hxs rfl
  | cons x t ih =>
    rw [mapKernelGetPointersOk_cons]
    cases t with
    | nil => simp [mapKernelGetPointersOk]
    | cons z t2 =>
      rw [ih (by simp)]
      simp

/-- A 2 × 2 `FLOAT64` operand that is contiguous but NOT trivial. -/
def mapOpContig : MapOperand := ⟨.FLOAT64, [2, 2], ⟨[1, 2], false, true⟩⟩

/-- A trivial, contiguous 2 × 2 `FLOAT64` operand. -/
def mapOpTriv : MapOperand := ⟨.FLOAT64, [2, 2], ⟨[2, 1], true, true⟩⟩

/-- C7 counterexample: the legacy map-kernel validation accepts an
operand that is contiguous but not trivial (it tests only
`isContiguous()`, legacy multiarray.hpp line 1392), although the claim
requires the operation to fail whenever a non-scalar operand is not
trivial-contiguous. -/
theorem mapKernel_accepts_nontrivial_operand :
    mapKernelGetPointersOk .FLOAT64 .FLOAT64 [2, 2]
        [mapOpContig, mapOpTriv] = true ∧
      mapOpContig.stride.isTrivial = false ∧
      mapOpContig.stride.isContiguous = true ∧
      mapOpContig.extent = [2, 2] ∧ mapOpContig.dtype = .FLOAT64 :=
  ⟨rfl, rfl, rfl, rfl, rfl⟩

/-- C7 (amended): the legacy `mapKernelGetPointers` validates every
operand of the pack EXCEPT THE LAST, each against: dtype equal to the
kernel pointer type and to the reference dtype, CONTIGUITY (triviality
is not tested), and extent equal to the reference extent; the variadic
extent check of the current header (`extractAndCheckExtent`) succeeds
exactly when all non-scalar operands share the same extent, testing
neither dtype nor contiguity. -/
theorem mapKernel_operand_checks (p d : Datatype) (e : Extent)
    (xs : List MapOperand) (y : MapOperand) (args : List MapArg)
    (hxs : xs ≠ []) :
    (mapKernelGetPointersOk p d e (xs ++ [y]) =
      xs.all (mapOperandOk p d e)) ∧
    ((∃ r, extractAndCheckExtent args = .ok r) ↔
      allEqHead (nonScalarExtents args) = true) := by
  refine ⟨mapKernelGetPointersOk_append p d e xs y hxs, ?_, ?_⟩
  · rintro ⟨r, hr⟩
    cases r with
    | scalar =>
      rw [(extractAndCheckExtent_spec args).2.1 hr]
      rfl
    | arr ex =>
      have hall := (extractAndCheckExtent_spec args).1 ex hr
      cases hns : nonScalarExtents args with
      | nil => rfl
      | cons n0 rest =>
        have hn0 : n0 = ex := hall n0 (by rw [hns]; simp)
        subst hn0
        simp only [allEqHead, List.all_eq_true, beq_iff_eq]
        intro z hz
        exact hall z (by rw [hns]; simp [hz])
  · intro hall
    cases hres : extractAndCheckExtent args with
    | ok r => exact ⟨r, rfl⟩
    | error u =>
      cases u
      have := (extractAndCheckExtent_spec args).2.2 hres
      rw [this] at hall
      cases hall

/-- Witness for `mapKernel_operand_checks`: a two-operand pack whose
first operand passes all legacy tests, and a scalar-plus-array argument
list with agreeing extents. -/
theorem mapKernel_operand_checks_witness :
    mapKernelGetPointersOk .FLOAT64 .FLOAT64 [2, 2]
        [mapOpTriv, mapOpContig] =
      List.all [mapOpTriv] (mapOperandOk .FLOAT64 .FLOAT64 [2, 2]) ∧
    ((∃ r, extractAndCheckExtent [.scalar, .arr [2, 3], .arr [2, 3]]
        = .ok r) ↔
      allEqHead (nonScalarExtents [.scalar, .arr [2, 3], .arr [2, 3]])
        = true) :=
  mapKernel_operand_checks .FLOAT64 .FLOAT64 [2, 2] [mapOpTriv] mapOpContig
    [.scalar, .arr [2, 3], .arr [2, 3]] (by simp)

/-! Claim C8: the scalar constructors. -/

/-- C8: constructing an array from an integral scalar (default dtype
`INT64`, default location `CPU`, as used by `Array(v)`) allocates exactly
one element on host memory — `extentSize [1] = 1` elements on `CPU` —
writes the value converted to the requested dtype, sets `isScalar =
true`, and gives the array extent `[1]` with stride `[1]`; with the
default dtype, a value in 64-bit range is stored unchanged. -/
theorem scalar_constructor_spec (v : Int) (d : Datatype) :
    (arrayFromIntScalar v d .CPU).arr.extent = [1] ∧
    extentSize (arrayFromIntScalar v d .CPU).arr.extent = 1 ∧
    (arrayFromIntScalar v d .CPU).allocElems = 1 ∧
    (arrayFromIntScalar v d .CPU).allocLoc = .CPU ∧
    (arrayFromIntScalar v d .CPU).arr.isScalar = true ∧
    (arrayFromIntScalar v d .CPU).arr.stride.vals = [1] ∧
    (arrayFromIntScalar v d .CPU).stored = convertScalar d v ∧
    (arrayFromIntScalar v).arr.dtype = .INT64 ∧
    (-(2 ^ 63) ≤ v → v < 2 ^ 63 → (arrayFromIntScalar v).stored = v) := by
  refine ⟨rfl, rfl, rfl, rfl, rfl, rfl, rfl, rfl, ?_⟩
  intro h1 h2
  show wrap64 v = v
  unfold wrap64
  have e63 : (2 : Int) ^ 63 = 9223372036854775808 := by norm_num
  have e64 : (2 : Int) ^ 64 = 18446744073709551616 := by norm_num
  rw [Int.emod_eq_of_lt (by omega) (by omega)]
  omega

/-- Witness for `scalar_constructor_spec`: the value 5 is stored as 5. -/
theorem scalar_constructor_spec_witness :
    (arrayFromIntScalar 5).stored = 5 :=
  (scalar_constructor_spec 5 .INT64).2.2.2.2.2.2.2.2 (by norm_num)
    (by norm_num)

/-! Claim C9: the sticky `fillRandom` seed. -/

/-- C9 counterexample: after a default-seeded call and then an explicit
`fillRandom(seed = 7)`, a third call with the default seed does NOT reuse
the sticky seed state 7 established by the preceding call: the condition
`prevSeed != seed` (legacy multiarray.hpp line 1279) fires because
`prevSeed = 7` differs from `(uint64_t)(-1)`, and the seed is re-derived
from the wall clock (here 300). -/
theorem fillRandomSeed_rederives_after_explicit :
    (fillRandomSeed 300 UINT64_MAX
        (fillRandomSeed 200 7
          (fillRandomSeed 100 UINT64_MAX initialSeedState))).statSeed
        = 300 ∧
      (fillRandomSeed 200 7
        (fillRandomSeed 100 UINT64_MAX initialSeedState)).statSeed = 7 ∧
      (300 : Nat) ≠ 7 :=
  ⟨rfl, rfl, by decide⟩

/-- C9 (amended): an explicit seed always replaces the sticky seed state;
a default-seeded (`-1`) call reuses the sticky seed only when the
previous call was also default-seeded and the state is initialized; a
default-seeded call re-derives the seed from wall-clock time both on the
first default-seeded call and after any explicit-seeded call. -/
theorem fillRandomSeed_stickiness (t s : Nat) (st : SeedState) :
    (s ≠ UINT64_MAX → fillRandomSeed t s st = ⟨s, s, true⟩) ∧
    (s = UINT64_MAX → st.prevSeed = UINT64_MAX → st.statSeedSet = true →
      fillRandomSeed t s st = st) ∧
    (s = UINT64_MAX → st.prevSeed ≠ UINT64_MAX →
      fillRandomSeed t s st = ⟨t, s, true⟩) ∧
    (s = UINT64_MAX → st.statSeedSet = false →
      fillRandomSeed t s st = ⟨t, s, true⟩) := by
  refine ⟨?_, ?_, ?_, ?_⟩
  · intro hs
    simp [fillRandomSeed, hs]
  · intro hs hp hset
    subst hs
    simp [fillRandomSeed, hp, hset]
  · intro hs hp
    subst hs
    simp [fillRandomSeed, hp]
  · intro hs hset
    subst hs
    simp [fillRandomSeed, hset]

/-- Witness for `fillRandomSeed_stickiness`: an explicit seed 7 is
installed verbatim, and a following default-seeded call re-derives from
the wall clock. -/
theorem fillRandomSeed_stickiness_witness :
    fillRandomSeed 100 7 initialSeedState = ⟨7, 7, true⟩ ∧
      fillRandomSeed 200 UINT64_MAX ⟨7, 7, true⟩
        = ⟨200, UINT64_MAX, true⟩ :=
  ⟨(fillRandomSeed_stickiness 100 7 initialSeedState).1 (by decide),
    (fillRandomSeed_stickiness 200 UINT64_MAX ⟨7, 7, true⟩).2.2.1 rfl
      (by decide)⟩

/-! Claim C10: the `ValueReference<bool>` bit reference. -/

/-- A single bit of the AND with a power of two. -/
theorem and_two_pow_eq (w j : Nat) :
    w &&& 2 ^ j = if w.testBit j then 2 ^ j else 0 := by
  apply Nat.eq_of_testBit_eq
  intro k
  rw [Nat.testBit_and]
  by_cases h : w.testBit j
  · rw [if_pos h]
    by_cases hk : k = j
    · subst hk
      simp [h, Nat.testBit_two_pow_self]
    · simp [Nat.testBit_two_pow_of_ne (fun hc => hk hc.symm)]
  · rw [if_neg h]
    by_cases hk : k = j
    · subst hk
      simp [h, Nat.zero_testBit]
    · simp [Nat.testBit_two_pow_of_ne (fun hc => hk hc.symm),
        Nat.zero_testBit]

/-- `ValueReference<bool>::get` reads exactly the addressed bit. -/
theorem boolRefGet_eq_testBit (w j : Nat) :
    boolRefGet w j = w.testBit j := by
  unfold boolRefGet
  rw [Nat.shiftLeft_eq, one_mul, and_two_pow_eq]
  cases h : w.testBit j <;> simp [h, (Nat.two_pow_pos j).ne']

/-- `set` then `get` at the same bit returns the stored value. -/
theorem boolRefSet_get_same (w bit : Nat) (v : Bool) (hbit : bit < 64) :
    boolRefGet (boolRefSet w bit v) bit = v := by
  rw [boolRefGet_eq_testBit]
  unfold boolRefSet
  cases v with
  | true =>
    simp [Nat.testBit_or, Nat.shiftLeft_eq, Nat.testBit_two_pow_self]
  | false =>
    have hmask : Nat.testBit 18446744073709551615 bit = true := by
      have hlit : (18446744073709551615 : Nat) = 2 ^ 64 - 1 := by norm_num
      rw [hlit, Nat.testBit_two_pow_sub_one]
      simp [hbit]
    simp [Nat.testBit_and, Nat.testBit_xor, Nat.shiftLeft_eq,
      Nat.testBit_two_pow_self, hmask]

/-- `set` leaves every other bit of the word unchanged. -/
theorem boolRefSet_get_other (w bit j : Nat) (v : Bool) (hj : j < 64)
    (hne : j ≠ bit) :
    boolRefGet (boolRefSet w bit v) j = boolRefGet w j := by
  rw [boolRefGet_eq_testBit, boolRefGet_eq_testBit]
  unfold boolRefSet
  cases v with
  | true =>
    simp [Nat.testBit_or, Nat.shiftLeft_eq,
      Nat.testBit_two_pow_of_ne (fun hc => hne hc.symm)]
  | false =>
    have hmask : Nat.testBit 18446744073709551615 j = true := by
      have hlit : (18446744073709551615 : Nat) = 2 ^ 64 - 1 := by norm_num
      rw [hlit, Nat.testBit_two_pow_sub_one]
      simp [hj]
    simp [Nat.testBit_and, Nat.testBit_xor, Nat.shiftLeft_eq,
      Nat.testBit_two_pow_of_ne (fun hc => hne hc.symm), hmask]

/-- C10: for every `uint16_t` bit index, the constructor assertion of
`ValueReference<bool>` accepts exactly the indices below 512 — although
the message text documents the accepted range as `[0, 64)` — and `get` /
`set` address exactly the bit `1 << b` of the referenced 64-bit word
(stated for `b < 64`, where the C++ shift is defined). -/
theorem valueReferenceBool_bit_semantics (bit : Nat) (hbit : bit < 65536) :
    (valueReferenceBoolBitOk bit = true ↔ bit < 512) ∧
    valueReferenceBoolEnforcedBound ≠ valueReferenceBoolMessageBound ∧
    (∀ w v, bit < 64 →
      boolRefGet (boolRefSet w bit v) bit = v ∧
      ∀ j, j < 64 → j ≠ bit →
        boolRefGet (boolRefSet w bit v) j = boolRefGet w j) := by
  refine ⟨?_, by decide, ?_⟩
  · simp [valueReferenceBoolBitOk]
  · intro w v h64
    exact ⟨boolRefSet_get_same w bit v h64,
      fun j hj hne => boolRefSet_get_other w bit j v hj hne⟩

/-- Witness for `valueReferenceBool_bit_semantics` at bit 5 of the word
37. -/
theorem valueReferenceBool_bit_semantics_witness :
    boolRefGet (boolRefSet 37 5 true) 5 = true :=
  ((valueReferenceBool_bit_semantics 5 (by norm_num)).2.2 37 true
    (by norm_num)).1

end librapid
